import Mathlib

/-!
# GoToSocial: media pruning, the fave handler, the mock HTTP client, the worker pool

A shallow embedding of

* `internal/processing/admin/mediaprune.go`   (`MediaPrune`)
* `internal/api/client/status/statusfave.go`  (`StatusFavePOSTHandler`)
* `testrig/transportcontroller.go`            (`NewMockHTTPClient`, `WebfingerResponse`)

Go values `(x, err)` are kept as pairs whose second component is an
`Option GoError` (`none` is Go's `nil`).  Collaborators reached through an
interface (media manager, processor, oauth, serializers) are parameters.
Effects are recorded as events; a goroutine is the list of events its body
performs, and a run of several goroutines is any interleaving of their lists.
-/

namespace GoToSocial

/-- A non-nil Go `error`, identified with the text its `Error()` method returns
(which is what the `%s` verb prints). -/
structure GoError where
  Error : String
deriving DecidableEq, Repr

/-! ## Goroutines and their schedules -/

/-- The traces a set of goroutines can produce: `Schedule gs t` holds when `t` is an
interleaving of the event lists `gs`, every goroutine having run to completion. -/
inductive Schedule {α : Type} : List (List α) → List α → Prop
  | done {gs : List (List α)} : (∀ g ∈ gs, g = []) → Schedule gs []
  | step {pre post : List (List α)} {g : List α} {e : α} {t : List α} :
      Schedule (pre ++ g :: post) t → Schedule (pre ++ (e :: g) :: post) (e :: t)

namespace admin

/-- What a run of `MediaPrune` does to the outside world: calls on the media manager
and lines written through logrus. -/
inductive Event (Ctx : Type) where
  | PruneAllRemote (ctx : Ctx) (olderThanDays : Int)
  | PruneUnusedLocalAttachments (ctx : Ctx)
  | PruneAllMeta (ctx : Ctx)
  | Errorf (msg : String)
  | Infof (msg : String)
deriving DecidableEq, Repr

/-- The three operations of `p.mediaManager` that `MediaPrune` uses, each returning
Go's `(int, error)`. -/
structure MediaManager (Ctx : Type) where
  PruneAllRemote : Ctx → Int → Int × Option GoError
  PruneUnusedLocalAttachments : Ctx → Int × Option GoError
  PruneAllMeta : Ctx → Int × Option GoError

/-- Modelled from the spec: `gtserror.WithCode` and `gtserror.NewErrorBadRequest` are
not among the sources; the spec calls the value an invalid-argument (validation)
error.  The record keeps what the caller passes and the HTTP code 400. -/
structure WithCode where
  original : GoError
  helpText : List String
  code : Nat
deriving DecidableEq, Repr

/-- Modelled from the spec: the bad-request constructor of `gtserror`. -/
def NewErrorBadRequest (original : GoError) (helpText : List String) : WithCode :=
  { original := original, helpText := helpText, code := 400 }

/-- The value of `fmt.Errorf(...)` at line 31. -/
def invalidDaysError (mediaRemoteCacheDays : Int) : GoError :=
  ⟨"MediaPrune: invalid value for mediaRemoteCacheDays prune: value was "
      ++ toString mediaRemoteCacheDays ++ ", cannot be less than 0"⟩

/-- Body of the first `go func()` (lines 35-42). -/
def pruneAllRemoteRoutine {Ctx : Type} (mm : MediaManager Ctx) (ctx : Ctx)
    (mediaRemoteCacheDays : Int) : List (Event Ctx) :=
  Event.PruneAllRemote ctx mediaRemoteCacheDays ::
    match mm.PruneAllRemote ctx mediaRemoteCacheDays with
    | (_, some err) => [Event.Errorf ("MediaPrune: error pruning remote cache: " ++ err.Error)]
    | (pruned, none) =>
        [Event.Infof ("MediaPrune: pruned " ++ toString pruned ++ " remote cache entries")]

/-- Body of the second `go func()` (lines 44-51). -/
def pruneUnusedLocalRoutine {Ctx : Type} (mm : MediaManager Ctx) (ctx : Ctx) :
    List (Event Ctx) :=
  Event.PruneUnusedLocalAttachments ctx ::
    match mm.PruneUnusedLocalAttachments ctx with
    | (_, some err) =>
        [Event.Errorf ("MediaPrune: error pruning unused local cache: " ++ err.Error)]
    | (pruned, none) =>
        [Event.Infof ("MediaPrune: pruned " ++ toString pruned ++ " unused local cache entries")]

/-- Body of the third `go func()` (lines 53-60). -/
def pruneAllMetaRoutine {Ctx : Type} (mm : MediaManager Ctx) (ctx : Ctx) : List (Event Ctx) :=
  Event.PruneAllMeta ctx ::
    match mm.PruneAllMeta ctx with
    | (_, some err) => [Event.Errorf ("MediaPrune: error pruning meta: " ++ err.Error)]
    | (pruned, none) => [Event.Infof ("MediaPrune: pruned " ++ toString pruned ++ " meta entries")]

/-- Result of one call of `MediaPrune`: the returned `gtserror.WithCode` (`none` is
`nil`) and the goroutines started by the call, in program order. -/
structure Outcome (Ctx : Type) where
  ret : Option WithCode
  goroutines : List (List (Event Ctx))

/-- `func (p *processor) MediaPrune(ctx, mediaRemoteCacheDays) gtserror.WithCode`. -/
def MediaPrune {Ctx : Type} (mm : MediaManager Ctx) (ctx : Ctx) (mediaRemoteCacheDays : Int) :
    Outcome Ctx :=
  if mediaRemoteCacheDays < 0 then
    let err := invalidDaysError mediaRemoteCacheDays
    { ret := some (NewErrorBadRequest err [err.Error]), goroutines := [] }
  else
    { ret := none
      goroutines :=
        [ pruneAllRemoteRoutine mm ctx mediaRemoteCacheDays,
          pruneUnusedLocalRoutine mm ctx,
          pruneAllMetaRoutine mm ctx ] }

/-- The value the `j`-th media manager operation hands back in a run
(0: `PruneAllRemote`, 1: `PruneUnusedLocalAttachments`, 2: `PruneAllMeta`). -/
def MediaManager.result {Ctx : Type} (mm : MediaManager Ctx) (ctx : Ctx) (days : Int) :
    Fin 3 → Int × Option GoError
  | 0 => mm.PruneAllRemote ctx days
  | 1 => mm.PruneUnusedLocalAttachments ctx
  | 2 => mm.PruneAllMeta ctx

/-- The call event of the `j`-th operation with the caller's arguments. -/
def expectedCall {Ctx : Type} (ctx : Ctx) (days : Int) : Fin 3 → Event Ctx
  | 0 => Event.PruneAllRemote ctx days
  | 1 => Event.PruneUnusedLocalAttachments ctx
  | 2 => Event.PruneAllMeta ctx

/-- Is the event a call of the `j`-th media manager operation? -/
def Event.isCallOf {Ctx : Type} : Fin 3 → Event Ctx → Bool
  | 0, Event.PruneAllRemote _ _ => true
  | 1, Event.PruneUnusedLocalAttachments _ => true
  | 2, Event.PruneAllMeta _ => true
  | _, _ => false

/-- Is the event a call of any media manager operation? -/
def Event.isCall {Ctx : Type} : Event Ctx → Bool
  | Event.PruneAllRemote _ _ => true
  | Event.PruneUnusedLocalAttachments _ => true
  | Event.PruneAllMeta _ => true
  | _ => false

/-- Is the event a log entry? -/
def Event.isLog {Ctx : Type} : Event Ctx → Bool
  | Event.Errorf _ => true
  | Event.Infof _ => true
  | _ => false

end admin

/-! ## `internal/api/client/status/statusfave.go` -/

namespace status

/-- The parts of `*gin.Context` the handler reads. -/
structure Gin (C : Type) where
  RequestURI : C → String
  UserAgent : C → String
  ClientIP : C → String
  Param : C → String → String

/-- The second argument of `c.JSON`: a `gin.H` map or the status from the processor. -/
inductive Body (Status : Type) where
  | H (entries : List (String × String))
  | Status (mastoStatus : Status)
deriving DecidableEq, Repr

/-- What a run of the handler does: log calls on `l`, the call of `oauth.Authed`, the call
of `m.processor.StatusFave`, and responses written with `c.JSON`. -/
inductive Event (C Auth Status : Type) where
  | Debug (fields : List (String × String)) (msg : String)
  | Authed (c : C) (requireToken requireApp requireUser requireAccount : Bool)
  | StatusFave (authed : Auth) (targetStatusID : String)
  | JSON (code : Nat) (obj : Body Status)
deriving DecidableEq, Repr

/-- The collaborators of the handler: gin, `oauth.Authed`, `m.processor.StatusFave` and
the package constant `IDKey` (declared outside the sources at hand). -/
structure Module (C Auth Status : Type) where
  gin : Gin C
  Authed : C → Bool → Bool → Bool → Bool → Auth × Option GoError
  StatusFave : Auth → String → Status × Option GoError
  IDKey : String

/-- `func (m *Module) StatusFavePOSTHandler(c *gin.Context)`. -/
def StatusFavePOSTHandler {C Auth Status : Type} (m : Module C Auth Status) (c : C) :
    List (Event C Auth Status) :=
  let fields :=
    [ ("func", "StatusFavePOSTHandler"),
      ("request_uri", m.gin.RequestURI c),
      ("user_agent", m.gin.UserAgent c),
      ("origin_ip", m.gin.ClientIP c) ]
  Event.Debug fields "entering function" ::
  Event.Authed c true false true true ::
    match m.Authed c true false true true with
    | (_, some _) =>
        [ Event.Debug fields "not authed so can't fave status",
          Event.JSON 401 (Body.H [("error", "not authorized")]) ]
    | (authed, none) =>
        let targetStatusID := m.gin.Param c m.IDKey
        if targetStatusID = "" then
          [ Event.JSON 400 (Body.H [("error", "no status id provided")]) ]
        else
          Event.StatusFave authed targetStatusID ::
            match m.StatusFave authed targetStatusID with
            | (_, some err) =>
                [ Event.Debug fields ("error processing status fave: " ++ err.Error),
                  Event.JSON 400 (Body.H [("error", "bad request")]) ]
            | (mastoStatus, none) => [ Event.JSON 200 (Body.Status mastoStatus) ]

/-- Is the event a call of `m.processor.StatusFave`? -/
def Event.isStatusFave {C Auth Status : Type} : Event C Auth Status → Bool
  | Event.StatusFave _ _ => true
  | _ => false

/-- Is the event a response written with `c.JSON`? -/
def Event.isJSON {C Auth Status : Type} : Event C Auth Status → Bool
  | Event.JSON _ _ => true
  | _ => false

end status

/-! ## `testrig/transportcontroller.go` -/

namespace testrig

/-- A Go `[]byte`. -/
abbrev Bytes := List UInt8

/-- The conversion `[]byte(s)`: the UTF-8 encoding of `s`. -/
def bytesOf (s : String) : Bytes :=
  s.data.flatMap String.utf8EncodeChar

/-- `strings.Contains(s, substr)`. -/
def stringsContains (s substr : String) : Bool :=
  s.data.tails.any (fun t => substr.data.isPrefixOf t)

/-- The part of `*http.Request` the mock client looks at: `URL` is `req.URL.String()`. -/
structure Request where
  Method : String
  URL : String
deriving DecidableEq, Repr

/-- The fields of `http.Response` the mock client sets; `Body` is what reading the
response body to its end yields. -/
structure Response where
  StatusCode : Int
  Body : Bytes
  ContentLength : Int
  Header : List (String × List String)
deriving DecidableEq, Repr

/-- `apimodel.Link`, with the fields the source sets. -/
structure Link where
  Rel : String
  «Type» : String
  Href : String
deriving DecidableEq, Repr

/-- `apimodel.WellKnownResponse`, with the fields the source sets. -/
structure WellKnownResponse where
  Subject : String
  Links : List Link
deriving DecidableEq, Repr

/-- A stored remote attachment: its bytes and its content type. -/
structure RemoteAttachmentFile where
  Data : Bytes
  ContentType : String
deriving DecidableEq, Repr

/-- The maps of stored remote models the mock client reads (`suite.testRemote...`);
`V` is `vocab.Type`.  A Go map lookup `m[k]` with `ok` is a function into `Option`. -/
structure Suite (V : Type) where
  testRemoteStatuses : String → Option V
  testRemotePeople : String → Option V
  testRemoteGroups : String → Option V
  testRemoteServices : String → Option V
  testRemoteAttachments : String → Option RemoteAttachmentFile

/-- The library serializers: `streams.Serialize`, and `json.Marshal` on a serialized
map and on a `*WellKnownResponse`; `J` is `map[string]interface{}`. -/
structure Codec (V J : Type) where
  Serialize : V → J × Option GoError
  MarshalMap : J → Bytes × Option GoError
  MarshalWebfinger : WellKnownResponse → Bytes × Option GoError

/-- The `switch req.URL.String()` of `WebfingerResponse` (lines 163-230): the value of
`wfr` after it, `none` being the nil pointer. -/
def webfingerLookup (url : String) : Option WellKnownResponse :=
  match url with
  | "https://unknown-instance.com/.well-known/webfinger?resource=acct:some_group@unknown-instance.com" =>
      some { Subject := "acct:some_group@unknown-instance.com",
             Links := [⟨"self", "application/activity+json", "https://unknown-instance.com/groups/some_group"⟩] }
  | "https://owncast.example.org/.well-known/webfinger?resource=acct:rgh@owncast.example.org" =>
      some { Subject := "acct:rgh@example.org",
             Links := [⟨"self", "application/activity+json", "https://owncast.example.org/federation/user/rgh"⟩] }
  | "https://unknown-instance.com/.well-known/webfinger?resource=acct:brand_new_person@unknown-instance.com" =>
      some { Subject := "acct:brand_new_person@unknown-instance.com",
             Links := [⟨"self", "application/activity+json", "https://unknown-instance.com/users/brand_new_person"⟩] }
  | "https://turnip.farm/.well-known/webfinger?resource=acct:turniplover6969@turnip.farm" =>
      some { Subject := "acct:turniplover6969@turnip.farm",
             Links := [⟨"self", "application/activity+json", "https://turnip.farm/users/turniplover6969"⟩] }
  | "https://fossbros-anonymous.io/.well-known/webfinger?resource=acct:foss_satan@fossbros-anonymous.io" =>
      some { Subject := "acct:foss_satan@fossbros-anonymous.io",
             Links := [⟨"self", "application/activity+json", "https://fossbros-anonymous.io/users/foss_satan"⟩] }
  | "https://example.org/.well-known/webfinger?resource=acct:some_user@example.org" =>
      some { Subject := "acct:some_user@example.org",
             Links := [⟨"self", "application/activity+json", "https://example.org/users/some_user"⟩] }
  | _ => none

/-- The four local variables of the standard `do` function, also the four results of
`WebfingerResponse`. -/
structure Vars where
  responseCode : Int
  responseBytes : Bytes
  responseContentType : String
  responseContentLength : Int
deriving DecidableEq, Repr

/-- `func WebfingerResponse(req)`; `Except.error e` is `panic(e)`. -/
def WebfingerResponse {V J : Type} (codec : Codec V J) (req : Request) : Except GoError Vars :=
  match webfingerLookup req.URL with
  | none =>
      let responseBytes := bytesOf "\x7b\"error\":\"not found\"\x7d"
      Except.ok
        { responseCode := 404
          responseBytes := responseBytes
          responseContentType := "application/json"
          responseContentLength := responseBytes.length }
  | some wfr =>
      match codec.MarshalWebfinger wfr with
      | (_, some err) => Except.error err
      | (wfrJson, none) =>
          Except.ok
            { responseCode := 200
              responseBytes := wfrJson
              responseContentType := "application/json"
              responseContentLength := wfrJson.length }

/-- One of the four blocks `if model, ok := suite.testRemote...[url]; ok { ... }`
(lines 72-84, 86-98, 100-112, 114-125); `Except.error e` is `panic(e)`. -/
def serveModel {V J : Type} (codec : Codec V J) (entry : Option V) (v : Vars) :
    Except GoError Vars :=
  match entry with
  | none => Except.ok v
  | some model =>
      match codec.Serialize model with
      | (_, some err) => Except.error err
      | (modelI, none) =>
          match codec.MarshalMap modelI with
          | (_, some err) => Except.error err
          | (modelJson, none) =>
              Except.ok
                { v with responseBytes := modelJson
                         responseContentType := "application/activity+json" }

/-- The block `if attachment, ok := suite.testRemoteAttachments[url]; ok { ... }`
(lines 127-130). -/
def serveAttachment (entry : Option RemoteAttachmentFile) (v : Vars) : Vars :=
  match entry with
  | none => v
  | some attachment =>
      { v with responseBytes := attachment.Data
               responseContentType := attachment.ContentType }

/-- The values of the four variables at line 133. -/
def standardVars {V J : Type} (suite : Suite V) (codec : Codec V J) (req : Request) :
    Except GoError Vars :=
  let responseBytes := bytesOf "\x7b\"error\":\"404 not found\"\x7d"
  let v0 : Vars :=
    { responseCode := 404
      responseBytes := responseBytes
      responseContentType := "application/json"
      responseContentLength := responseBytes.length }
  if stringsContains req.URL ".well-known/webfinger" then
    WebfingerResponse codec req
  else
    (serveModel codec (suite.testRemoteStatuses req.URL) v0).bind fun v1 =>
    (serveModel codec (suite.testRemotePeople req.URL) v1).bind fun v2 =>
    (serveModel codec (suite.testRemoteGroups req.URL) v2).bind fun v3 =>
    (serveModel codec (suite.testRemoteServices req.URL) v3).bind fun v4 =>
    Except.ok (serveAttachment (suite.testRemoteAttachments req.URL) v4)

/-- What a `do` function hands back: Go's `(*http.Response, error)`. -/
abbrev DoResult := Option Response × Option GoError

/-- The function literal of lines 63-144 (the `logrus.Debugf` lines write to the log
only and are left out). -/
def standardDo {V J : Type} (suite : Suite V) (codec : Codec V J) (req : Request) :
    Except GoError DoResult :=
  (standardVars suite codec req).map fun v =>
    (some { StatusCode := v.responseCode
            Body := v.responseBytes
            ContentLength := v.responseContentLength
            Header := [("content-type", [v.responseContentType])] },
     none)

/-- A Go `func(req *http.Request) (*http.Response, error)`: it may read and change the
state `σ` of the program around it, and it may panic (`Except.error`). -/
abbrev DoFunc (σ : Type) := Request → σ → Except GoError (DoResult × σ)

/-- `type mockHTTPClient struct`. -/
structure mockHTTPClient (σ : Type) where
  «do» : DoFunc σ

/-- `func NewMockHTTPClient(do)`; `none` is a nil `do`. -/
def NewMockHTTPClient {V J σ : Type} (suite : Suite V) (codec : Codec V J)
    (f : Option (DoFunc σ)) : mockHTTPClient σ :=
  match f with
  | none => { «do» := fun req s => (standardDo suite codec req).map fun r => (r, s) }
  | some g => { «do» := g }

/-- `func (m *mockHTTPClient) Do(req)`. -/
def mockHTTPClient.Do {σ : Type} (m : mockHTTPClient σ) (req : Request) :
    σ → Except GoError (DoResult × σ) :=
  m.«do» req

/-- A `do` function wrapped so that every call of it adds one to a counter kept next to
the state. -/
def countCalls {σ : Type} (f : DoFunc σ) : DoFunc (σ × Nat) :=
  fun req s => (f req s.1).map fun r => (r.1, (r.2, s.2 + 1))

end testrig

/-! ## The worker pool (`internal/concurrency`, used by the tests) -/

namespace concurrency

/-- Modelled from the spec: the life cycle of a pool, "not started", "running" or
"stopped" (section 3); the pool's source is not among the files at hand. -/
inductive Phase where
  | notStarted
  | running
  | stopped
deriving DecidableEq, Repr

/-- Modelled from the spec: one worker execution unit (section 4.1).  It waits for an
item, or runs the consumer function on the one item it received, or has exited. -/
inductive ExecUnit (T : Type) where
  | idle
  | processing (item : T)
  | exited
deriving DecidableEq, Repr

/-- Modelled from the spec: `Worker Pool<T>` of section 3: the configured sizes, the
life cycle, the bounded queue and the launched execution units. -/
structure WorkerPool (T : Type) where
  workers : Int
  queueSize : Int
  phase : Phase
  capacity : Nat
  queue : List T
  units : List (ExecUnit T)
deriving DecidableEq, Repr

/-- Modelled from the spec: what the runtime supplies when a size is not positive: the
number of available execution units, and the factor of the default queue size. -/
structure Runtime where
  parallelism : Nat
  queueFactor : Nat
deriving DecidableEq, Repr

/-- Modelled from the spec: `New(workers, queueSize)` returns a pool in the "not started"
state and does not allocate the queue yet. -/
def NewWorkerPool {T : Type} (workers queueSize : Int) : WorkerPool T :=
  { workers := workers, queueSize := queueSize, phase := Phase.notStarted,
    capacity := 0, queue := [], units := [] }

/-- Modelled from the spec: the worker count `Start` derives: `workers <= 0` selects the
runtime default. -/
def workerCount (rt : Runtime) (workers : Int) : Nat :=
  if workers ≤ 0 then rt.parallelism else workers.toNat

/-- Modelled from the spec: the queue capacity `Start` derives: `queueSize <= 0` selects a
default proportional to the worker count. -/
def queueCapacity (rt : Runtime) (workers queueSize : Int) : Nat :=
  if queueSize ≤ 0 then rt.queueFactor * workerCount rt workers else queueSize.toNat

/-- Modelled from the spec: the things that can happen to a pool, one at a time: the
operations `Start`, `Enqueue`, `Stop` of section 4.1, and the moves of a single execution
unit (it receives the head of the queue, its consumer function returns, it exits). -/
inductive Action (T : Type) where
  | Start
  | Enqueue (item : T)
  | Receive (unit : Nat)
  | Finish (unit : Nat)
  | Stop
  | Exit (unit : Nat)
deriving DecidableEq, Repr

/-- Modelled from the spec: one action on a pool (section 4.1); `none` when the action
fails or cannot happen yet (a second `Start`, an `Enqueue` on a full queue or on a pool
that is not running, a unit that is busy, an empty queue). -/
def step {T : Type} (rt : Runtime) (p : WorkerPool T) : Action T → Option (WorkerPool T)
  | Action.Start =>
      if p.phase = Phase.notStarted then
        some { p with phase := Phase.running
                      capacity := queueCapacity rt p.workers p.queueSize
                      queue := []
                      units := List.replicate (workerCount rt p.workers) ExecUnit.idle }
      else none
  | Action.Enqueue item =>
      if p.phase = Phase.running ∧ p.queue.length < p.capacity then
        some { p with queue := p.queue ++ [item] }
      else none
  | Action.Receive i =>
      match p.units.get? i, p.queue with
      | some ExecUnit.idle, item :: rest =>
          some { p with queue := rest, units := p.units.set i (ExecUnit.processing item) }
      | _, _ => none
  | Action.Finish i =>
      match p.units.get? i with
      | some (ExecUnit.processing _) => some { p with units := p.units.set i ExecUnit.idle }
      | _ => none
  | Action.Stop =>
      if p.phase = Phase.running then some { p with phase := Phase.stopped } else none
  | Action.Exit i =>
      match p.units.get? i, p.queue with
      | some ExecUnit.idle, [] =>
          if p.phase = Phase.stopped then
            some { p with units := p.units.set i ExecUnit.exited }
          else none
      | _, _ => none

/-- Modelled from the spec: a history of a pool: the actions happen in the order of the
list, each on the state the previous one left. -/
def run {T : Type} (rt : Runtime) (p : WorkerPool T) : List (Action T) → Option (WorkerPool T)
  | [] => some p
  | a :: rest => (step rt p a).bind fun q => run rt q rest

/-- Does the unit run the consumer function on a message? -/
def ExecUnit.isProcessing {T : Type} : ExecUnit T → Bool
  | ExecUnit.processing _ => true
  | _ => false

/-- The number of messages being processed by the consumer function in a state. -/
def inFlight {T : Type} (p : WorkerPool T) : Nat :=
  p.units.countP ExecUnit.isProcessing

end concurrency


namespace admin

/-- A media manager for the examples: the remote prune reports as many entries as days
asked, the local prune fails, the meta prune reports two entries. -/
def demoManager : MediaManager Unit :=
  { PruneAllRemote := fun _ days => (days, none)
    PruneUnusedLocalAttachments := fun _ => (0, some ⟨"storage unavailable"⟩)
    PruneAllMeta := fun _ => (2, none) }

/-- A media manager for the examples in which all three operations fail. -/
def failingManager : MediaManager Unit :=
  { PruneAllRemote := fun _ _ => (0, some ⟨"remote failed"⟩)
    PruneUnusedLocalAttachments := fun _ => (0, some ⟨"local failed"⟩)
    PruneAllMeta := fun _ => (0, some ⟨"meta failed"⟩) }

end admin


namespace status

/-- A module for the examples: the context is the pair of a token and the value of the
`id` parameter; `oauth.Authed` accepts the token "good"; the processor knows the
status "01F8MH" only. -/
def demoModule : Module (String × String) String String :=
  { gin :=
      { RequestURI := fun _ => "/api/v1/statuses/x/favourite"
        UserAgent := fun _ => "agent"
        ClientIP := fun _ => "127.0.0.1"
        Param := fun c key => if key = "id" then c.2 else "" }
    Authed := fun c _ _ _ _ =>
      if c.1 = "good" then ("zork", none) else ("", some ⟨"token invalid"⟩)
    StatusFave := fun _ targetStatusID =>
      if targetStatusID = "01F8MH" then ("faved", none) else ("", some ⟨"no such status"⟩)
    IDKey := "id" }

end status

namespace testrig

/-- The stored remote models of `suite` that have `url` as a key, attachments apart. -/
def Suite.models {V : Type} (suite : Suite V) (url : String) : List V :=
  List.reduceOption
    [ suite.testRemoteStatuses url, suite.testRemotePeople url,
      suite.testRemoteGroups url, suite.testRemoteServices url ]

/-- A suite for the examples: one URL is a key both of the stored statuses and of the
stored attachments, another one of the stored people only. -/
def demoSuite : Suite String :=
  { testRemoteStatuses := fun url => if url = "https://example.org/both" then some "note" else none
    testRemotePeople := fun url => if url = "https://example.org/person" then some "person" else none
    testRemoteGroups := fun _ => none
    testRemoteServices := fun _ => none
    testRemoteAttachments := fun url =>
      if url = "https://example.org/both" then some ⟨[1, 2, 3], "image/png"⟩ else none }

/-- Serializers for the examples: they never fail. -/
def demoCodec : Codec String String :=
  { Serialize := fun v => (v, none)
    MarshalMap := fun j => (bytesOf j, none)
    MarshalWebfinger := fun w => (bytesOf w.Subject, none) }

end testrig


namespace concurrency

/-- A history for the examples: a pool of two workers is started and receives a burst of
three messages, of which each worker takes one. -/
def burstActions : List (Action Nat) :=
  [ Action.Start, Action.Enqueue 10, Action.Enqueue 11, Action.Enqueue 12,
    Action.Receive 0, Action.Receive 1 ]

/-- The state after `burstActions`: both workers busy, the third message queued. -/
def burstState : WorkerPool Nat :=
  { workers := 2, queueSize := -1, phase := Phase.running, capacity := 20, queue := [12],
    units := [ExecUnit.processing 10, ExecUnit.processing 11] }

end concurrency


/-! # Theorems

## Schedules -/

theorem Schedule.perm_flatten {α : Type} {gs : List (List α)} {t : List α}
    (h : Schedule gs t) : t.Perm gs.flatten := by
  induction h with
  | @done gs hnil =>
      have : gs.flatten = [] := by
        induction gs with
        | nil => rfl
        | cons g rest ih =>
            have hg : g = [] := hnil g (List.mem_cons_self _ _)
            have hrest : ∀ x ∈ rest, x = [] := fun x hx => hnil x (List.mem_cons_of_mem _ hx)
            simp [hg, ih hrest]
      rw [this]
  | @step pre post g e t _ ih =>
      have h1 : (pre ++ (e :: g) :: post).flatten = pre.flatten ++ e :: (g ++ post.flatten) := by
        simp
      have h2 : (pre ++ g :: post).flatten = pre.flatten ++ (g ++ post.flatten) := by
        simp
      rw [h1]
      rw [h2] at ih
      exact (List.Perm.cons e ih).trans List.perm_middle.symm

theorem Schedule.cons_nil {α : Type} {gs : List (List α)} {t : List α}
    (h : Schedule gs t) : Schedule ([] :: gs) t := by
  induction h with
  | @done gs hnil =>
      refine Schedule.done ?_
      intro g hg
      rcases List.mem_cons.mp hg with rfl | hg
      · rfl
      · exact hnil g hg
  | @step pre post g e t _ ih =>
      exact @Schedule.step α ([] :: pre) post g e t ih

theorem Schedule.cons_cons {α : Type} {gs : List (List α)} {g : List α} {e : α} {t : List α}
    (h : Schedule (g :: gs) t) : Schedule ((e :: g) :: gs) (e :: t) :=
  @Schedule.step α [] gs g e t h

/-- Running the goroutines one after the other is one of the schedules. -/
theorem Schedule.sequential {α : Type} (gs : List (List α)) : Schedule gs gs.flatten := by
  induction gs with
  | nil => exact Schedule.done (by simp)
  | cons g rest ih =>
      induction g with
      | nil => simpa using Schedule.cons_nil ih
      | cons e g ihg => simpa using Schedule.cons_cons ihg

theorem Schedule.filter_eq_singleton {α : Type} {gs : List (List α)} {t : List α}
    (h : Schedule gs t) (p : α → Bool) (a : α) (hf : gs.flatten.filter p = [a]) :
    t.filter p = [a] := by
  have := (h.perm_flatten.filter p)
  rw [hf] at this
  exact List.perm_singleton.mp this

theorem Schedule.filter_length {α : Type} {gs : List (List α)} {t : List α}
    (h : Schedule gs t) (p : α → Bool) :
    (t.filter p).length = (gs.flatten.filter p).length :=
  (h.perm_flatten.filter p).length_eq


namespace admin

theorem MediaPrune_of_nonneg {Ctx : Type} (mm : MediaManager Ctx) (ctx : Ctx) (days : Int)
    (h : 0 ≤ days) :
    MediaPrune mm ctx days =
      { ret := none
        goroutines :=
          [ pruneAllRemoteRoutine mm ctx days,
            pruneUnusedLocalRoutine mm ctx,
            pruneAllMetaRoutine mm ctx ] } := by
  unfold MediaPrune
  rw [if_neg (not_lt.mpr h)]

theorem MediaPrune_of_neg {Ctx : Type} (mm : MediaManager Ctx) (ctx : Ctx) (days : Int)
    (h : days < 0) :
    MediaPrune mm ctx days =
      { ret := some (NewErrorBadRequest (invalidDaysError days) [(invalidDaysError days).Error])
        goroutines := [] } := by
  unfold MediaPrune
  rw [if_pos h]

theorem routine_eq {Ctx : Type} (mm : MediaManager Ctx) (ctx : Ctx) (days : Int) (j : Fin 3) :
    [ pruneAllRemoteRoutine mm ctx days,
      pruneUnusedLocalRoutine mm ctx,
      pruneAllMetaRoutine mm ctx ].get? j
      = some (expectedCall ctx days j ::
          match (mm.result ctx days j).2 with
          | some err =>
              [Event.Errorf
                ((match j with
                  | 0 => "MediaPrune: error pruning remote cache: "
                  | 1 => "MediaPrune: error pruning unused local cache: "
                  | 2 => "MediaPrune: error pruning meta: ") ++ err.Error)]
          | none =>
              [Event.Infof
                ("MediaPrune: pruned " ++ toString (mm.result ctx days j).1 ++
                  (match j with
                   | 0 => " remote cache entries"
                   | 1 => " unused local cache entries"
                   | 2 => " meta entries"))]) := by
  fin_cases j
  · simp only [pruneAllRemoteRoutine, MediaManager.result, expectedCall]
    rcases mm.PruneAllRemote ctx days with ⟨n, _ | e⟩ <;> rfl
  · simp only [pruneUnusedLocalRoutine, MediaManager.result, expectedCall]
    rcases mm.PruneUnusedLocalAttachments ctx with ⟨n, _ | e⟩ <;> rfl
  · simp only [pruneAllMetaRoutine, MediaManager.result, expectedCall]
    rcases mm.PruneAllMeta ctx with ⟨n, _ | e⟩ <;> rfl

theorem routines_calls {Ctx : Type} (mm : MediaManager Ctx) (ctx : Ctx) (days : Int) :
    (List.flatten [ pruneAllRemoteRoutine mm ctx days, pruneUnusedLocalRoutine mm ctx,
        pruneAllMetaRoutine mm ctx ]).filter (Event.isCallOf 0)
        = [Event.PruneAllRemote ctx days]
      ∧ (List.flatten [ pruneAllRemoteRoutine mm ctx days, pruneUnusedLocalRoutine mm ctx,
        pruneAllMetaRoutine mm ctx ]).filter (Event.isCallOf 1)
        = [Event.PruneUnusedLocalAttachments ctx]
      ∧ (List.flatten [ pruneAllRemoteRoutine mm ctx days, pruneUnusedLocalRoutine mm ctx,
        pruneAllMetaRoutine mm ctx ]).filter (Event.isCallOf 2)
        = [Event.PruneAllMeta ctx]
      ∧ ((List.flatten [ pruneAllRemoteRoutine mm ctx days, pruneUnusedLocalRoutine mm ctx,
        pruneAllMetaRoutine mm ctx ]).filter Event.isCall).length = 3 := by
  rcases h1 : mm.PruneAllRemote ctx days with ⟨n1, _ | x1⟩ <;>
    rcases h2 : mm.PruneUnusedLocalAttachments ctx with ⟨n2, _ | x2⟩ <;>
    rcases h3 : mm.PruneAllMeta ctx with ⟨n3, _ | x3⟩ <;>
    simp [pruneAllRemoteRoutine, pruneUnusedLocalRoutine, pruneAllMetaRoutine, h1, h2, h3,
      Event.isCallOf, Event.isCall, List.filter]


/-- C1: for every context and every `mediaRemoteCacheDays < 0`, `MediaPrune` returns a
non-nil bad-request error (code 400, built from the message of line 31) and starts no
goroutine, so that every run of the started work is empty: no media manager operation is
invoked and no log entry is written. -/
theorem MediaPrune_negative_rejected {Ctx : Type} (mm : MediaManager Ctx) (ctx : Ctx)
    (mediaRemoteCacheDays : Int) (h : mediaRemoteCacheDays < 0) :
    (MediaPrune mm ctx mediaRemoteCacheDays).ret
        = some (NewErrorBadRequest (invalidDaysError mediaRemoteCacheDays)
            [(invalidDaysError mediaRemoteCacheDays).Error])
      ∧ (NewErrorBadRequest (invalidDaysError mediaRemoteCacheDays)
            [(invalidDaysError mediaRemoteCacheDays).Error]).code = 400
      ∧ (MediaPrune mm ctx mediaRemoteCacheDays).goroutines = []
      ∧ ∀ t, Schedule (MediaPrune mm ctx mediaRemoteCacheDays).goroutines t →
          t = [] ∧ t.filter Event.isCall = [] ∧ t.filter Event.isLog = [] := by
  rw [MediaPrune_of_neg mm ctx mediaRemoteCacheDays h]
  refine ⟨rfl, rfl, rfl, ?_⟩
  intro t ht
  have hp := ht.perm_flatten
  have ht0 : t = [] := by simpa using hp
  subst ht0
  exact ⟨rfl, rfl, rfl⟩

/-- Witness of C1 at `mediaRemoteCacheDays = -1`. -/
theorem MediaPrune_negative_rejected_witness :
    (-1 : Int) < 0 ∧ (MediaPrune demoManager () (-1)).goroutines = [] :=
  ⟨by decide, (MediaPrune_negative_rejected demoManager () (-1) (by decide)).2.2.1⟩

/-- C2: `MediaPrune` returns nil exactly when `mediaRemoteCacheDays >= 0`, whatever the
media manager (so also when all three operations fail); it returns an error if and only
if `mediaRemoteCacheDays < 0`. -/
theorem MediaPrune_ret_nil_iff {Ctx : Type} (mm : MediaManager Ctx) (ctx : Ctx)
    (mediaRemoteCacheDays : Int) :
    ((MediaPrune mm ctx mediaRemoteCacheDays).ret = none ↔ 0 ≤ mediaRemoteCacheDays)
      ∧ ((∃ e, (MediaPrune mm ctx mediaRemoteCacheDays).ret = some e)
          ↔ mediaRemoteCacheDays < 0) := by
  by_cases h : mediaRemoteCacheDays < 0
  · rw [MediaPrune_of_neg mm ctx mediaRemoteCacheDays h]
    constructor
    · constructor
      · intro h'; cases h'
      · intro h'; omega
    · exact ⟨fun _ => h, fun _ => ⟨_, rfl⟩⟩
  · have h0 : 0 ≤ mediaRemoteCacheDays := not_lt.mp h
    rw [MediaPrune_of_nonneg mm ctx mediaRemoteCacheDays h0]
    constructor
    · exact ⟨fun _ => h0, fun _ => rfl⟩
    · constructor
      · rintro ⟨e, he⟩; cases he
      · intro h'; exact absurd h' h

/-- C3: for `mediaRemoteCacheDays >= 0` one call of `MediaPrune` starts exactly three
goroutines, the `j`-th of which invokes the `j`-th media manager operation once; the
goroutines can run to completion, and in every run each of `PruneAllRemote`,
`PruneUnusedLocalAttachments` and `PruneAllMeta` is invoked exactly once, with the
caller's context, `PruneAllRemote` with the caller's `mediaRemoteCacheDays`. -/
theorem MediaPrune_three_subtasks {Ctx : Type} (mm : MediaManager Ctx) (ctx : Ctx)
    (mediaRemoteCacheDays : Int) (h : 0 ≤ mediaRemoteCacheDays) :
    (MediaPrune mm ctx mediaRemoteCacheDays).goroutines.length = 3
      ∧ (∀ j : Fin 3, ∃ g, (MediaPrune mm ctx mediaRemoteCacheDays).goroutines.get? j = some g
            ∧ g.filter Event.isCall = [expectedCall ctx mediaRemoteCacheDays j])
      ∧ (∃ t, Schedule (MediaPrune mm ctx mediaRemoteCacheDays).goroutines t)
      ∧ ∀ t, Schedule (MediaPrune mm ctx mediaRemoteCacheDays).goroutines t →
          t.filter (Event.isCallOf 0) = [Event.PruneAllRemote ctx mediaRemoteCacheDays]
          ∧ t.filter (Event.isCallOf 1) = [Event.PruneUnusedLocalAttachments ctx]
          ∧ t.filter (Event.isCallOf 2) = [Event.PruneAllMeta ctx]
          ∧ (t.filter Event.isCall).length = 3 := by
  rw [MediaPrune_of_nonneg mm ctx mediaRemoteCacheDays h]
  refine ⟨rfl, ?_, ⟨_, Schedule.sequential _⟩, ?_⟩
  · intro j
    refine ⟨_, routine_eq mm ctx mediaRemoteCacheDays j, ?_⟩
    fin_cases j <;>
      simp only [MediaManager.result, expectedCall] <;>
      split <;> rfl
  · intro t ht
    have hc := routines_calls mm ctx mediaRemoteCacheDays
    refine ⟨ht.filter_eq_singleton _ _ hc.1, ht.filter_eq_singleton _ _ hc.2.1,
      ht.filter_eq_singleton _ _ hc.2.2.1, ?_⟩
    rw [ht.filter_length Event.isCall, hc.2.2.2]

/-- Witness of C3 at `mediaRemoteCacheDays = 0`. -/
theorem MediaPrune_three_subtasks_witness :
    (0 : Int) ≤ 0 ∧ (MediaPrune demoManager () 0).goroutines.length = 3 :=
  ⟨by decide, (MediaPrune_three_subtasks demoManager () 0 (by decide)).1⟩

/-- C4: a fault in one sub-task does not reach the others.  Let two runs of `MediaPrune`
with `mediaRemoteCacheDays >= 0` differ at most in what the `k`-th media manager operation
returns.  Then every other sub-task `j` performs the same events in both runs: it invokes
its operation once with the caller's arguments, and its log entries are the same. -/
theorem MediaPrune_subtasks_isolated {Ctx : Type} (mm mm' : MediaManager Ctx) (ctx : Ctx)
    (mediaRemoteCacheDays : Int) (h : 0 ≤ mediaRemoteCacheDays) (k j : Fin 3)
    (hsame : ∀ i : Fin 3, i ≠ k →
      mm.result ctx mediaRemoteCacheDays i = mm'.result ctx mediaRemoteCacheDays i)
    (hj : j ≠ k) :
    ∃ g, (MediaPrune mm ctx mediaRemoteCacheDays).goroutines.get? j = some g
      ∧ (MediaPrune mm' ctx mediaRemoteCacheDays).goroutines.get? j = some g
      ∧ g.filter Event.isCall = [expectedCall ctx mediaRemoteCacheDays j] := by
  rw [MediaPrune_of_nonneg mm ctx mediaRemoteCacheDays h,
    MediaPrune_of_nonneg mm' ctx mediaRemoteCacheDays h]
  refine ⟨_, routine_eq mm ctx mediaRemoteCacheDays j, ?_, ?_⟩
  · show List.get? _ _ = _
    rw [routine_eq mm' ctx mediaRemoteCacheDays j, hsame j hj]
  · fin_cases j <;>
      simp only [MediaManager.result, expectedCall] <;>
      split <;> rfl

/-- Witness of C4: the remote prune succeeds in one run and fails in the other; the
sub-task of the local prune is the same in both. -/
theorem MediaPrune_subtasks_isolated_witness :
    ∃ g, (MediaPrune demoManager () 3).goroutines.get? 1 = some g
      ∧ (MediaPrune { demoManager with PruneAllRemote := fun _ _ => (0, some ⟨"x"⟩) } () 3
          ).goroutines.get? 1 = some g
      ∧ g.filter Event.isCall = [Event.PruneUnusedLocalAttachments ()] :=
  MediaPrune_subtasks_isolated demoManager
    { demoManager with PruneAllRemote := fun _ _ => (0, some ⟨"x"⟩) } () 3 (by decide) 0 1
    (by intro i hi; fin_cases i <;> first | exact absurd rfl hi | rfl) (by decide)

/-- C5: each sub-task started by `MediaPrune` reports its outcome through the log and only
there: `MediaPrune` itself returns nil, and the `j`-th sub-task writes exactly one log
entry, an error-level entry ending in the error text when its operation returned an
error, and otherwise an info-level entry containing the returned count. -/
theorem MediaPrune_subtask_logs_once {Ctx : Type} (mm : MediaManager Ctx) (ctx : Ctx)
    (mediaRemoteCacheDays : Int) (h : 0 ≤ mediaRemoteCacheDays) (j : Fin 3) :
    (MediaPrune mm ctx mediaRemoteCacheDays).ret = none
      ∧ ∃ g, (MediaPrune mm ctx mediaRemoteCacheDays).goroutines.get? j = some g
          ∧ (g.filter Event.isLog).length = 1
          ∧ (∀ err, (mm.result ctx mediaRemoteCacheDays j).2 = some err →
              ∃ pre, g.filter Event.isLog = [Event.Errorf (pre ++ err.Error)])
          ∧ ((mm.result ctx mediaRemoteCacheDays j).2 = none →
              ∃ pre suf, g.filter Event.isLog
                = [Event.Infof
                    (pre ++ toString (mm.result ctx mediaRemoteCacheDays j).1 ++ suf)]) := by
  rw [MediaPrune_of_nonneg mm ctx mediaRemoteCacheDays h]
  refine ⟨rfl, _, routine_eq mm ctx mediaRemoteCacheDays j, ?_⟩
  rcases hres : (mm.result ctx mediaRemoteCacheDays j).2 with _ | e
  · refine ⟨?_, ?_, ?_⟩
    · fin_cases j <;> rfl
    · intro err herr; cases herr
    · intro _
      fin_cases j <;> exact ⟨_, _, rfl⟩
  · refine ⟨?_, ?_, ?_⟩
    · fin_cases j <;> rfl
    · intro err herr
      cases herr
      fin_cases j <;> exact ⟨_, rfl⟩
    · intro h'; cases h'

/-- Witness of C5: all three operations fail, and the sub-task of the local prune writes
the one error entry. -/
theorem MediaPrune_subtask_logs_once_witness :
    (0 : Int) ≤ 7 ∧ (MediaPrune failingManager () 7).ret = none
      ∧ ∃ g, (MediaPrune failingManager () 7).goroutines.get? 1 = some g
          ∧ (g.filter Event.isLog).length = 1 :=
  ⟨by decide, (MediaPrune_subtask_logs_once failingManager () 7 (by decide) 1).1,
    (MediaPrune_subtask_logs_once failingManager () 7 (by decide) 1).2.imp
      fun _ hg => ⟨hg.1, hg.2.1⟩⟩

end admin


namespace testrig

/-- C7: for every function `do` and every request, the client built by
`NewMockHTTPClient(do)` uses that function: `Do(req)` is `do(req)` (same response, same
error, same effect on the program state), and `do` is called exactly once per `Do`
call: with `do` wrapped to count its calls, one `Do` raises the count by one. -/
theorem NewMockHTTPClient_uses_given_do {V J σ : Type} (suite : Suite V) (codec : Codec V J)
    (f : DoFunc σ) (req : Request) (s : σ) (n : Nat) :
    (NewMockHTTPClient suite codec (some f)).Do req s = f req s
      ∧ (NewMockHTTPClient suite codec (some (countCalls f))).Do req (s, n)
          = (f req s).map fun r => (r.1, (r.2, n + 1)) :=
  ⟨rfl, rfl⟩

end testrig

namespace status

/-- C9: `m.processor.StatusFave` is invoked at most once by the handler, and it is invoked
if and only if `oauth.Authed` returned no error and the status ID parameter is not
empty; it then receives the value `oauth.Authed` returned and that status ID. -/
theorem StatusFave_invoked_iff_authed_and_id {C Auth Status : Type} (m : Module C Auth Status)
    (c : C) :
    ((StatusFavePOSTHandler m c).filter Event.isStatusFave).length ≤ 1
      ∧ (StatusFavePOSTHandler m c).filter Event.isStatusFave
          = if (m.Authed c true false true true).2 = none ∧ m.gin.Param c m.IDKey ≠ "" then
              [Event.StatusFave (m.Authed c true false true true).1 (m.gin.Param c m.IDKey)]
            else [] := by
  unfold StatusFavePOSTHandler
  rcases ha : m.Authed c true false true true with ⟨authed, _ | aerr⟩
  · by_cases hid : m.gin.Param c m.IDKey = ""
    · simp [hid, Event.isStatusFave, List.filter]
    · rcases hf : m.StatusFave authed (m.gin.Param c m.IDKey) with ⟨st, _ | ferr⟩ <;>
        simp [hid, hf, Event.isStatusFave, List.filter]
  · simp [Event.isStatusFave, List.filter]

/-- C10: the handler writes exactly one JSON response: 401 "not authorized" if
`oauth.Authed` returned an error; otherwise 400 "no status id provided" if the status ID
parameter is empty; otherwise 400 with the fixed body "bad request" if
`m.processor.StatusFave` returned an error; otherwise 200 with the status it returned. -/
theorem StatusFave_writes_one_response {C Auth Status : Type} (m : Module C Auth Status)
    (c : C) :
    (StatusFavePOSTHandler m c).filter Event.isJSON
      = [ if ((m.Authed c true false true true).2).isSome then
            Event.JSON 401 (Body.H [("error", "not authorized")])
          else if m.gin.Param c m.IDKey = "" then
            Event.JSON 400 (Body.H [("error", "no status id provided")])
          else if ((m.StatusFave (m.Authed c true false true true).1
              (m.gin.Param c m.IDKey)).2).isSome then
            Event.JSON 400 (Body.H [("error", "bad request")])
          else
            Event.JSON 200 (Body.Status
              (m.StatusFave (m.Authed c true false true true).1 (m.gin.Param c m.IDKey)).1) ] := by
  unfold StatusFavePOSTHandler
  rcases ha : m.Authed c true false true true with ⟨authed, _ | aerr⟩
  · by_cases hid : m.gin.Param c m.IDKey = ""
    · simp [hid, Event.isJSON, List.filter]
    · rcases hf : m.StatusFave authed (m.gin.Param c m.IDKey) with ⟨st, _ | ferr⟩ <;>
        simp [hid, hf, Event.isJSON, List.filter]
  · simp [Event.isJSON, List.filter]

end status

namespace concurrency

theorem step_preserves {T : Type} (rt : Runtime) (w : Int) (p q : WorkerPool T) (a : Action T)
    (hw : p.workers = w) (hlen : p.units.length ≤ workerCount rt w)
    (h : step rt p a = some q) :
    q.workers = w ∧ q.units.length ≤ workerCount rt w := by
  cases a with
  | Start =>
      simp only [step] at h
      split at h
      · cases h
        simp [hw]
      · cases h
  | Enqueue item =>
      simp only [step] at h
      split at h
      · cases h
        exact ⟨hw, hlen⟩
      · cases h
  | Receive i =>
      simp only [step] at h
      split at h
      · cases h
        simpa using ⟨hw, hlen⟩
      · cases h
  | Finish i =>
      simp only [step] at h
      split at h
      · cases h
        simpa using ⟨hw, hlen⟩
      · cases h
  | Stop =>
      simp only [step] at h
      split at h
      · cases h
        exact ⟨hw, hlen⟩
      · cases h
  | Exit i =>
      simp only [step] at h
      split at h
      · split at h
        · cases h
          simpa using ⟨hw, hlen⟩
        · cases h
      · cases h

theorem run_preserves {T : Type} (rt : Runtime) (w : Int) (acts : List (Action T)) :
    ∀ (p q : WorkerPool T), p.workers = w → p.units.length ≤ workerCount rt w →
      run rt p acts = some q → q.workers = w ∧ q.units.length ≤ workerCount rt w := by
  induction acts with
  | nil =>
      intro p q hw hlen h
      simp only [run] at h
      cases h
      exact ⟨hw, hlen⟩
  | cons a rest ih =>
      intro p q hw hlen h
      simp only [run] at h
      rcases hs : step rt p a with _ | p'
      · rw [hs] at h
        cases h
      · rw [hs] at h
        have := step_preserves rt w p p' a hw hlen hs
        exact ih p' q this.1 this.2 h

/-- C6: for a pool whose `Start` launched `N` workers (`N = workerCount rt workers`), in
every state the pool can reach, whatever the number and the order of `Enqueue` calls and
of the moves of the workers, at most `N` messages are being processed by the consumer
function. -/
theorem inFlight_le_workerCount {T : Type} (rt : Runtime) (workers queueSize : Int)
    (acts : List (Action T)) (p : WorkerPool T)
    (h : run rt (NewWorkerPool workers queueSize) acts = some p) :
    inFlight p ≤ workerCount rt workers := by
  have := run_preserves rt workers acts (NewWorkerPool workers queueSize) p rfl
    (by simp [NewWorkerPool]) h
  exact le_trans (List.countP_le_length _) this.2

/-- Witness of C6: a pool of two workers and a burst of three messages; both workers are
busy and the third message waits in the queue. -/
theorem inFlight_le_workerCount_witness :
    run ⟨8, 10⟩ (NewWorkerPool 2 (-1)) burstActions = some burstState
      ∧ inFlight burstState ≤ workerCount ⟨8, 10⟩ 2 :=
  ⟨by decide, inFlight_le_workerCount ⟨8, 10⟩ 2 (-1) burstActions burstState (by decide)⟩

end concurrency


namespace testrig

theorem serveModel_none {V J : Type} (codec : Codec V J) (v : Vars) :
    serveModel codec none v = Except.ok v := rfl

theorem serveModel_some {V J : Type} (codec : Codec V J) (v : Vars) (x : V) (i : J) (b : Bytes)
    (hs : codec.Serialize x = (i, none)) (hm : codec.MarshalMap i = (b, none)) :
    serveModel codec (some x) v
      = Except.ok { v with responseBytes := b
                           responseContentType := "application/activity+json" } := by
  simp only [serveModel, hs, hm]

theorem standardDo_error_nil {V J : Type} (suite : Suite V) (codec : Codec V J) (req : Request)
    (r : DoResult) (h : standardDo suite codec req = Except.ok r) :
    r.2 = none ∧ r.1.isSome = true := by
  unfold standardDo at h
  rcases hv : standardVars suite codec req with e | v
  · rw [hv] at h
    cases h
  · rw [hv] at h
    cases h
    exact ⟨rfl, rfl⟩

/-- C8 (amended): with a nil `do` the client never returns an error: when its `Do`
returns, the error is nil and a response is there.  For a URL containing
".well-known/webfinger" status code, body and content type are those of
`WebfingerResponse(req)`.  For any other URL that is a key of exactly one of the stored
statuses, people, groups, services or attachments, the body is that stored model: its
JSON serialization with content type application/activity+json when the serializers
succeed, or the attachment's data with the attachment's content type.  For a URL that is
a key of none of them the response is 404 with the body "404 not found" and content
type application/json. -/
theorem standard_response_set {V J σ : Type} (suite : Suite V) (codec : Codec V J)
    (req : Request) (s : σ) :
    (∀ r s', (NewMockHTTPClient suite codec none).Do req s = Except.ok (r, s') →
        r.2 = none ∧ r.1.isSome = true ∧ s' = s)
      ∧ (stringsContains req.URL ".well-known/webfinger" = true →
          ∀ v, WebfingerResponse codec req = Except.ok v →
            ∃ resp, (NewMockHTTPClient suite codec none).Do req s = Except.ok ((some resp, none), s)
              ∧ resp.StatusCode = v.responseCode ∧ resp.Body = v.responseBytes
              ∧ resp.Header = [("content-type", [v.responseContentType])])
      ∧ (stringsContains req.URL ".well-known/webfinger" = false →
          ∀ x i b, suite.models req.URL = [x] → suite.testRemoteAttachments req.URL = none →
            codec.Serialize x = (i, none) → codec.MarshalMap i = (b, none) →
            ∃ resp, (NewMockHTTPClient suite codec none).Do req s = Except.ok ((some resp, none), s)
              ∧ resp.Body = b
              ∧ resp.Header = [("content-type", ["application/activity+json"])])
      ∧ (stringsContains req.URL ".well-known/webfinger" = false →
          ∀ a, suite.models req.URL = [] → suite.testRemoteAttachments req.URL = some a →
            ∃ resp, (NewMockHTTPClient suite codec none).Do req s = Except.ok ((some resp, none), s)
              ∧ resp.Body = a.Data
              ∧ resp.Header = [("content-type", [a.ContentType])])
      ∧ (stringsContains req.URL ".well-known/webfinger" = false →
          suite.models req.URL = [] → suite.testRemoteAttachments req.URL = none →
            ∃ resp, (NewMockHTTPClient suite codec none).Do req s = Except.ok ((some resp, none), s)
              ∧ resp.StatusCode = 404
              ∧ resp.Body = bytesOf "\x7b\"error\":\"404 not found\"\x7d"
              ∧ resp.Header = [("content-type", ["application/json"])]) := by
  have hDo : (NewMockHTTPClient suite codec (none : Option (DoFunc σ))).Do req s
      = (standardDo suite codec req).map fun r => (r, s) := rfl
  refine ⟨?_, ?_, ?_, ?_, ?_⟩
  · intro r s' h
    rw [hDo] at h
    rcases hd : standardDo suite codec req with e | r0
    · rw [hd] at h
      cases h
    · rw [hd] at h
      cases h
      have := standardDo_error_nil suite codec req r hd
      exact ⟨this.1, this.2, rfl⟩
  · intro hc v hv
    rw [hDo]
    simp only [standardDo, standardVars, hc, if_true, hv]
    exact ⟨_, rfl, rfl, rfl, rfl⟩
  · intro hc x i b hmod hatt hser hmar
    rw [hDo]
    have hser' := serveModel_some codec
    simp only [Suite.models] at hmod
    rcases h1 : suite.testRemoteStatuses req.URL with _ | x1 <;>
      rcases h2 : suite.testRemotePeople req.URL with _ | x2 <;>
      rcases h3 : suite.testRemoteGroups req.URL with _ | x3 <;>
      rcases h4 : suite.testRemoteServices req.URL with _ | x4 <;>
      simp [h1, h2, h3, h4, List.reduceOption] at hmod
    all_goals
      subst hmod
      simp only [standardDo, standardVars, hc, h1, h2, h3, h4, hatt, serveModel_none,
        hser' _ _ i b hser hmar, Except.bind, serveAttachment, Except.map]
      exact ⟨_, rfl, rfl, rfl⟩
  · intro hc a hmod hatt
    rw [hDo]
    simp only [Suite.models] at hmod
    rcases h1 : suite.testRemoteStatuses req.URL with _ | x1 <;>
      rcases h2 : suite.testRemotePeople req.URL with _ | x2 <;>
      rcases h3 : suite.testRemoteGroups req.URL with _ | x3 <;>
      rcases h4 : suite.testRemoteServices req.URL with _ | x4 <;>
      simp [h1, h2, h3, h4, List.reduceOption] at hmod
    simp only [standardDo, standardVars, hc, h1, h2, h3, h4, hatt, serveModel_none,
      Except.bind, serveAttachment, Except.map]
    exact ⟨_, rfl, rfl, rfl⟩
  · intro hc hmod hatt
    rw [hDo]
    simp only [Suite.models] at hmod
    rcases h1 : suite.testRemoteStatuses req.URL with _ | x1 <;>
      rcases h2 : suite.testRemotePeople req.URL with _ | x2 <;>
      rcases h3 : suite.testRemoteGroups req.URL with _ | x3 <;>
      rcases h4 : suite.testRemoteServices req.URL with _ | x4 <;>
      simp [h1, h2, h3, h4, List.reduceOption] at hmod
    simp only [standardDo, standardVars, hc, h1, h2, h3, h4, hatt, serveModel_none,
      Except.bind, serveAttachment, Except.map]
    exact ⟨_, rfl, rfl, rfl, rfl⟩

/-- Witness of C8 (amended): a URL that is a key of the stored people only. -/
theorem standard_response_set_witness :
    ∃ resp, (NewMockHTTPClient demoSuite demoCodec none).Do
          ⟨"GET", "https://example.org/person"⟩ () = Except.ok ((some resp, none), ())
      ∧ resp.Body = bytesOf "person"
      ∧ resp.Header = [("content-type", ["application/activity+json"])] :=
  (standard_response_set demoSuite demoCodec ⟨"GET", "https://example.org/person"⟩ ()).2.2.1
    (by decide) "person" "person" (bytesOf "person") (by decide) (by decide) rfl rfl

/-- C8 as stated fails: "https://example.org/both" does not contain
".well-known/webfinger" and is a key of two stored maps (statuses and attachments), so it
is among the "remaining" URLs, yet the body returned is the attachment's data, not the
"404 not found" body, and the content type is the attachment's. -/
theorem standard_response_remaining_counterexample :
    stringsContains "https://example.org/both" ".well-known/webfinger" = false
      ∧ demoSuite.testRemoteStatuses "https://example.org/both" = some "note"
      ∧ demoSuite.testRemoteAttachments "https://example.org/both" = some ⟨[1, 2, 3], "image/png"⟩
      ∧ (NewMockHTTPClient demoSuite demoCodec none).Do ⟨"GET", "https://example.org/both"⟩ ()
          = Except.ok ((some ⟨404, [1, 2, 3], 25, [("content-type", ["image/png"])]⟩, none), ())
      ∧ ([1, 2, 3] : Bytes) ≠ bytesOf "\x7b\"error\":\"404 not found\"\x7d"
      ∧ "image/png" ≠ "application/json" :=
  ⟨by decide, by decide, by decide, by rfl, by decide, by decide⟩

theorem WebfingerResponse_contentLength {V J : Type} (codec : Codec V J) (req : Request)
    (v : Vars) (h : WebfingerResponse codec req = Except.ok v) :
    v.responseContentLength = v.responseBytes.length := by
  unfold WebfingerResponse at h
  rcases hl : webfingerLookup req.URL with _ | wfr
  · rw [hl] at h
    cases h
    rfl
  · rw [hl] at h
    rcases hm : codec.MarshalWebfinger wfr with ⟨b, _ | e⟩
    · simp only [hm] at h
      cases h
      rfl
    · simp only [hm] at h
      cases h

theorem serveModel_contentLength {V J : Type} (codec : Codec V J) (entry : Option V)
    (v v' : Vars) (h : serveModel codec entry v = Except.ok v') :
    v'.responseContentLength = v.responseContentLength
      ∧ v'.responseCode = v.responseCode := by
  unfold serveModel at h
  rcases entry with _ | x
  · cases h
    exact ⟨rfl, rfl⟩
  · rcases hs : codec.Serialize x with ⟨i, _ | e⟩
    · rcases hm : codec.MarshalMap i with ⟨b, _ | e⟩
      · simp only [hs, hm] at h
        cases h
        exact ⟨rfl, rfl⟩
      · simp only [hs, hm] at h
        cases h
    · simp only [hs] at h
      cases h

theorem serveAttachment_contentLength (entry : Option RemoteAttachmentFile) (v : Vars) :
    (serveAttachment entry v).responseContentLength = v.responseContentLength
      ∧ (serveAttachment entry v).responseCode = v.responseCode := by
  rcases entry with _ | a <;> exact ⟨rfl, rfl⟩

/-- In the branch that serves stored models the content length is never reassigned: whatever
is stored under the URL, the variable keeps the length of the "404 not found" body. -/
theorem standardVars_stored_contentLength {V J : Type} (suite : Suite V) (codec : Codec V J)
    (req : Request) (v : Vars)
    (hc : stringsContains req.URL ".well-known/webfinger" = false)
    (h : standardVars suite codec req = Except.ok v) :
    v.responseContentLength = 25 ∧ v.responseCode = 404 := by
  simp only [standardVars, hc] at h
  rcases h1 : serveModel codec (suite.testRemoteStatuses req.URL)
      { responseCode := 404
        responseBytes := bytesOf "\x7b\"error\":\"404 not found\"\x7d"
        responseContentType := "application/json"
        responseContentLength :=
          (bytesOf "\x7b\"error\":\"404 not found\"\x7d").length } with e | v1
  · simp [h1, Except.bind] at h
  rcases h2 : serveModel codec (suite.testRemotePeople req.URL) v1 with e | v2
  · simp [h1, h2, Except.bind] at h
  rcases h3 : serveModel codec (suite.testRemoteGroups req.URL) v2 with e | v3
  · simp [h1, h2, h3, Except.bind] at h
  rcases h4 : serveModel codec (suite.testRemoteServices req.URL) v3 with e | v4
  · simp [h1, h2, h3, h4, Except.bind] at h
  simp only [h1, h2, h3, h4, Except.bind, Bool.false_eq_true, if_false] at h
  cases h
  have e1 := serveModel_contentLength codec _ _ _ h1
  have e2 := serveModel_contentLength codec _ _ _ h2
  have e3 := serveModel_contentLength codec _ _ _ h3
  have e4 := serveModel_contentLength codec _ _ _ h4
  have e5 := serveAttachment_contentLength (suite.testRemoteAttachments req.URL) v4
  refine ⟨?_, ?_⟩
  · rw [e5.1, e4.1, e3.1, e2.1, e1.1]
    rfl
  · rw [e5.2, e4.2, e3.2, e2.2, e1.2]

/-- In the webfinger branch the content length of the response is the length of its body,
for the six known URLs and for unknown ones. -/
theorem standardDo_webfinger_contentLength {V J σ : Type} (suite : Suite V) (codec : Codec V J)
    (req : Request) (s s' : σ) (resp : Response) (err : Option GoError)
    (hc : stringsContains req.URL ".well-known/webfinger" = true)
    (h : (NewMockHTTPClient suite codec none).Do req s = Except.ok ((some resp, err), s')) :
    resp.ContentLength = resp.Body.length := by
  have hDo : (NewMockHTTPClient suite codec (none : Option (DoFunc σ))).Do req s
      = (standardDo suite codec req).map fun r => (r, s) := rfl
  rw [hDo] at h
  simp only [standardDo, standardVars, hc, if_true] at h
  rcases hw : WebfingerResponse codec req with e | v
  · rw [hw] at h
    cases h
  · rw [hw] at h
    cases h
    exact WebfingerResponse_contentLength codec req v hw

/-- C11 at a failing input: "https://example.org/person" is a key of the stored people
only and its serialization is six bytes long; "https://example.org/both" is served the
three bytes of a stored attachment.  In both responses of the client with a nil `do` the
`ContentLength` is 25, the length of the "404 not found" body the variable was
initialised with, and not the length of the body returned. -/
theorem standard_response_contentLength_stale :
    (NewMockHTTPClient demoSuite demoCodec none).Do ⟨"GET", "https://example.org/person"⟩ ()
        = Except.ok
            ((some ⟨404, bytesOf "person", 25,
                [("content-type", ["application/activity+json"])]⟩, none), ())
      ∧ (bytesOf "person").length = 6
      ∧ (NewMockHTTPClient demoSuite demoCodec none).Do ⟨"GET", "https://example.org/both"⟩ ()
          = Except.ok ((some ⟨404, [1, 2, 3], 25, [("content-type", ["image/png"])]⟩, none), ())
      ∧ ([1, 2, 3] : Bytes).length = 3
      ∧ (bytesOf "\x7b\"error\":\"404 not found\"\x7d").length = 25 :=
  ⟨by rfl, by decide, by rfl, by decide, by decide⟩

end testrig

end GoToSocial
